import Mathlib

/-!
Verification of the Word-Pronouncer dictionary client (`src/src/App.tsx`).

The app's state and its transitions are embedded shallowly:
pure functions of the source become Lean functions, the React state
becomes an explicit `AppState` record, and the asynchronous fetch is
modelled by an explicit `FetchResult` describing how the network call
resolved.  The event-driven execution (submits and response arrivals
interleaving) is modelled by a step relation on `AppState` paired with
the list of in-flight request terms.
-/

/-- `Definition` from `App.tsx` (lines 4-9).  The source field `example`
is a Lean keyword, so it is named `exampleText` here; `synonyms` and
`antonyms` are optional arrays in the source (`string[] | undefined`). -/
structure Definition where
  definition : String
  exampleText : Option String
  synonyms : Option (List String)
  antonyms : Option (List String)
deriving DecidableEq

/-- `Meaning` from `App.tsx` (lines 11-14). -/
structure Meaning where
  partOfSpeech : String
  definitions : List Definition
deriving DecidableEq

/-- `Phonetic` from `App.tsx` (lines 16-19): both fields optional. -/
structure Phonetic where
  text : Option String
  audio : Option String
deriving DecidableEq

/-- `WordData` from `App.tsx` (lines 21-26). -/
structure WordData where
  word : String
  phonetics : List Phonetic
  meanings : List Meaning
  origin : Option String
deriving DecidableEq

/-- The React component state of `App` (`App.tsx` lines 29-33):
`searchTerm`, `wordData` (null modelled as `none`; `data[0]` of an empty
array is `undefined`, also modelled as `none`), `loading`, `error`,
`searchHistory`. -/
structure AppState where
  searchTerm : String
  wordData : Option WordData
  loading : Bool
  error : Option String
  searchHistory : List String
deriving DecidableEq

/-- The initial React state (`useState` initialisers, lines 29-33). -/
def initialState : AppState :=
  { searchTerm := "", wordData := none, loading := false, error := none,
    searchHistory := [] }

/-- How the awaited `fetch` + `response.json()` of `searchWord`
(lines 42-48) can resolve: the fetch promise rejects (`networkError`),
`response.ok` is false (`notOk`, the code then throws), `json()` rejects
(`parseError`), or a JSON array of word records parses (`ok data`). -/
inductive FetchResult where
  | networkError
  | notOk
  | parseError
  | ok (data : List WordData)
deriving DecidableEq

/-- `fr.isFailure` is true on every resolution the `catch` block of
`searchWord` handles (anything but a parsed body). -/
def FetchResult.isFailure : FetchResult → Bool
  | .ok _ => false
  | _ => true

/-- JavaScript `String.prototype.trim()`: drop whitespace from both ends.
(Lean's own `String.trim` is not kernel-reducible, so the same function
is written structurally on the character list.) -/
def jsTrim (s : String) : String :=
  ⟨((s.data.dropWhile Char.isWhitespace).reverse.dropWhile
      Char.isWhitespace).reverse⟩

/-- JavaScript `String.prototype.toLowerCase()` on the character list. -/
def jsToLower (s : String) : String :=
  ⟨s.data.map Char.toLower⟩

/-- The history update of `searchWord` (line 53):
`[word, ...prev.filter(item => item !== word)].slice(0, 5)`. -/
def recordHistory (word : String) (prev : List String) : List String :=
  (word :: prev.filter (fun item => item ≠ word)).take 5

/-- The URL passed to `fetch` (line 42), keyed by the lowercased term. -/
def requestUrl (word : String) : String :=
  "https://api.dictionaryapi.dev/api/v2/entries/en/" ++ jsToLower word

/-- The error message set in the `catch` block (line 57). -/
def errorMessage : String :=
  "Word not found. Please check the spelling and try again."

/-- The synchronous prefix of `searchWord` (lines 36-39): return
unchanged when the trimmed term is empty (`!word.trim()`), otherwise
`setLoading(true); setError(null)` before the fetch is issued. -/
def searchPending (word : String) (st : AppState) : AppState :=
  if jsTrim word = "" then st
  else { st with loading := true, error := none }

/-- The continuation of `searchWord` run when the fetch resolves
(lines 44-61): on a parsed body, `setWordData(data[0])` and the history
update; on any failure, `setError(...)` and `setWordData(null)`; in both
cases `finally` runs `setLoading(false)`.  Note the success branch does
not touch `error`. -/
def completeWord (word : String) (fr : FetchResult) (st : AppState) : AppState :=
  match fr with
  | .ok data =>
      { st with wordData := data.head?,
                searchHistory := recordHistory word st.searchHistory,
                loading := false }
  | _ =>
      { st with error := some errorMessage, wordData := none,
                loading := false }

/-- `searchWord(word)` run to completion with the fetch resolving as
`fr`, starting from state `st`.  Returns the final state and the URL of
the network request issued (`none` when the blank-input guard returns
early and no fetch happens). -/
def searchWord (word : String) (fr : FetchResult) (st : AppState) :
    AppState × Option String :=
  if jsTrim word = "" then (st, none)
  else (completeWord word fr (searchPending word st), some (requestUrl word))

/-- Outcome of reading the fixed key `dictionaryHistory` from the local
key-value store at startup (`App.tsx` lines 100-106).  `missing` covers
`localStorage.getItem` returning `null` (or the falsy empty string);
`corrupt` covers a stored string `JSON.parse` rejects (such as a bare
brace); `parses v` covers a stored string parsing to the array `v`. -/
inductive StoredValue where
  | missing
  | corrupt
  | parses (v : List String)
deriving DecidableEq

/-- The startup load effect (lines 100-106): when nothing usable is
stored the state keeps its initial empty history; when the stored string
parses, the parsed array is installed; when `JSON.parse` throws, the
exception escapes the effect uncaught (modelled as `Except.error`). -/
def loadHistory : StoredValue → Except String (List String)
  | .missing => .ok []
  | .corrupt => .error "SyntaxError: uncaught in the load effect"
  | .parses v => .ok v

/-- The renderer's phonetic-spelling line (`App.tsx` lines 187-189):
shown only when `phonetics` is nonempty and entry 0 carries a text that
is truthy (a present, nonempty string); the text shown is entry 0's. -/
def phoneticDisplay (wd : WordData) : Option String :=
  match wd.phonetics with
  | [] => none
  | p :: _ =>
    match p.text with
    | none => none
    | some t => if t = "" then none else some t

/-- Modelled from the spec's words, for comparison with the code: "the
text of the first phonetic entry in order that carries a text field,
whether or not earlier entries lack one". -/
def firstAvailablePhoneticText (wd : WordData) : Option String :=
  (wd.phonetics.filterMap Phonetic.text).head?

/-- A record whose first phonetic entry has audio but no text, while the
second entry carries a transcription. -/
def cexPhonWD : WordData :=
  { word := "ks",
    phonetics := [{ text := none, audio := some "ks.mp3" },
                  { text := some "/ks/", audio := none }],
    meanings := [], origin := none }

/-- One rendered definition block (`App.tsx` lines 235-264): the shown
number, the definition text, the optional example line, and the optional
synonym/antonym lines. -/
structure RenderedDefinition where
  number : Nat
  text : String
  exampleLine : Option String
  synonymsLine : Option String
  antonymsLine : Option String
deriving DecidableEq

/-- Rendering of one definition at list index `idx` (lines 236-263):
the number shown is `defIndex + 1`; a synonyms (antonyms) line appears
only when the array is present and nonempty, and shows
`slice(0, 5).join(", ")`. -/
def renderDefinition (idx : Nat) (d : Definition) : RenderedDefinition :=
  { number := idx + 1,
    text := d.definition,
    exampleLine := d.exampleText,
    synonymsLine :=
      match d.synonyms with
      | some syns =>
          if syns.length > 0 then
            some (String.intercalate ", " (syns.take 5))
          else none
      | none => none,
    antonymsLine :=
      match d.antonyms with
      | some ants =>
          if ants.length > 0 then
            some (String.intercalate ", " (ants.take 5))
          else none
      | none => none }

/-- Rendering of one meaning's definition list (lines 235-265): each
definition is rendered at its array index. -/
def renderMeaning (m : Meaning) : List RenderedDefinition :=
  m.definitions.enum.map (fun p => renderDefinition p.1 p.2)

/-- A definition with six synonyms and six antonyms, used to
instantiate the rendering theorem. -/
def exDefinition : Definition :=
  { definition := "a small animal", exampleText := none,
    synonyms := some ["s1", "s2", "s3", "s4", "s5", "s6"],
    antonyms := some ["a1", "a2", "a3", "a4", "a5", "a6"] }

/-- A meaning holding `exDefinition` and one further definition. -/
def exMeaning : Meaning :=
  { partOfSpeech := "noun",
    definitions := [exDefinition,
      { definition := "d2", exampleText := none, synonyms := none,
        antonyms := none }] }

/-- One event of the running app, acting on the React state paired with
the list of in-flight request terms.  `setTerm` is typing in the input
(line 133); `loadStored` is the startup load installing a parsed stored
history (line 104); `submit` is the synchronous prefix of a non-blank
`searchWord` call (a blank submit changes nothing, so it needs no step);
`complete` is the arrival of some in-flight request's resolution, which
runs the rest of `searchWord` on whatever the state is at that moment —
the source has no request cancellation or staleness guard. -/
inductive AppStep :
    AppState × List String → AppState × List String → Prop
  | setTerm (s : String) (st : AppState) (rs : List String) :
      AppStep (st, rs) ({ st with searchTerm := s }, rs)
  | loadStored (v : List String) (st : AppState) (rs : List String) :
      AppStep (st, rs) ({ st with searchHistory := v }, rs)
  | submit (w : String) (st : AppState) (rs : List String)
      (h : jsTrim w ≠ "") :
      AppStep (st, rs) (searchPending w st, w :: rs)
  | complete (w : String) (fr : FetchResult) (st : AppState)
      (rs : List String) (h : w ∈ rs) :
      AppStep (st, rs) (completeWord w fr st, rs.erase w)

/-- States the event-driven app can reach from startup. -/
def AppReachable (x : AppState × List String) : Prop :=
  Relation.ReflTransGen AppStep (initialState, []) x

/-- The same events restricted to non-overlapping use: a submit is only
issued while no request is in flight, so each response is processed
before the next search starts. -/
inductive SeqAppStep :
    AppState × List String → AppState × List String → Prop
  | setTerm (s : String) (st : AppState) (rs : List String) :
      SeqAppStep (st, rs) ({ st with searchTerm := s }, rs)
  | loadStored (v : List String) (st : AppState) (rs : List String) :
      SeqAppStep (st, rs) ({ st with searchHistory := v }, rs)
  | submit (w : String) (st : AppState) (h : jsTrim w ≠ "") :
      SeqAppStep (st, []) (searchPending w st, [w])
  | complete (w : String) (fr : FetchResult) (st : AppState)
      (rs : List String) (h : w ∈ rs) :
      SeqAppStep (st, rs) (completeWord w fr st, rs.erase w)

/-- States reachable from startup without overlapping requests. -/
def SeqReachable (x : AppState × List String) : Prop :=
  Relation.ReflTransGen SeqAppStep (initialState, []) x

/-- The record returned for the second search of the racing trace. -/
def cexWD : WordData :=
  { word := "bb", phonetics := [], meanings := [], origin := none }

/-- The state left behind by the racing trace: submit "aa", submit "bb"
while "aa" is still in flight, then "aa"'s failure lands, then "bb"'s
success lands.  Both an error and a word record are set. -/
def racedState : AppState :=
  { searchTerm := "", wordData := some cexWD, loading := false,
    error := some errorMessage, searchHistory := ["bb"] }

/-- The numbers shown for a definition list rendered from index `n`
count up from `n + 1`. -/
theorem renderMeaning_numbers_aux (l : List Definition) (n : Nat) :
    ((List.enumFrom n l).map (fun p => renderDefinition p.1 p.2)).map
        (fun r => r.number) = List.range' (n + 1) l.length := by
  induction l generalizing n with
  | nil => simp
  | cons d ds ih =>
    show (((n, d) :: List.enumFrom (n + 1) ds).map
        (fun p => renderDefinition p.1 p.2)).map (fun r => r.number) =
      List.range' (n + 1) (ds.length + 1)
    rw [List.map_cons, List.map_cons, ih]
    rfl

/-- C1: `record` puts the term first, the term occurs exactly once, the
result keeps at most 5 entries all drawn from the term and the prior
history, and the two worked examples of the spec hold. -/
theorem recordHistory_spec (t : String) (h : List String) :
    (recordHistory t h).head? = some t ∧
    (recordHistory t h).count t = 1 ∧
    (recordHistory t h).length ≤ 5 ∧
    (∀ x ∈ recordHistory t h, x = t ∨ x ∈ h) ∧
    recordHistory "a" ["b", "a", "c", "d", "e"] = ["a", "b", "c", "d", "e"] ∧
    recordHistory "f" ["e", "d", "c", "b", "a"] = ["f", "e", "d", "c", "b"] := by
  have hnot : t ∉ (h.filter (fun item => item ≠ t)).take 4 := by
    intro hmem
    have := List.mem_filter.mp (List.take_subset 4 _ hmem)
    simp at this
  refine ⟨?_, ?_, ?_, ?_, by decide, by decide⟩
  · simp [recordHistory]
  · have h0 : List.count t ((h.filter (fun item => item ≠ t)).take 4) = 0 :=
      List.count_eq_zero.mpr hnot
    show List.count t ((t :: h.filter (fun item => item ≠ t)).take (4 + 1)) = 1
    rw [List.take_succ_cons, List.count_cons_self, h0]
  · simp [recordHistory]
  · intro x hx
    rcases List.mem_cons.mp (List.take_subset 5 _ hx) with h1 | h1
    · exact Or.inl h1
    · exact Or.inr (List.mem_filter.mp h1).1

/-- C4: a term whose trim is empty causes no network call and leaves the
state entirely unchanged. -/
theorem searchWord_blank_noop (word : String) (fr : FetchResult)
    (st : AppState) (hb : jsTrim word = "") :
    searchWord word fr st = (st, none) := by
  simp [searchWord, hb]

/-- Witness for C4 at a whitespace-only term. -/
theorem searchWord_blank_noop_witness :
    searchWord "  " FetchResult.networkError initialState =
      (initialState, none) :=
  searchWord_blank_noop "  " FetchResult.networkError initialState (by decide)

/-- C3: when the lookup fails in any way (`response.ok` false, a network
rejection, or a body that does not parse), `searchWord` clears the word
record, sets the single user-facing message, sets `loading` to false,
and leaves the history unchanged. -/
theorem searchWord_failure (word : String) (fr : FetchResult)
    (st : AppState) (hw : jsTrim word ≠ "") (hf : fr.isFailure = true) :
    (searchWord word fr st).1.wordData = none ∧
    (searchWord word fr st).1.error = some errorMessage ∧
    (searchWord word fr st).1.loading = false ∧
    (searchWord word fr st).1.searchHistory = st.searchHistory := by
  cases fr with
  | ok data => simp [FetchResult.isFailure] at hf
  | networkError => simp [searchWord, hw, completeWord, searchPending]
  | notOk => simp [searchWord, hw, completeWord, searchPending]
  | parseError => simp [searchWord, hw, completeWord, searchPending]

/-- Witness for C3: a non-blank term whose fetch resolves as a 404. -/
theorem searchWord_failure_witness :
    (searchWord "cat" FetchResult.notOk initialState).1.wordData = none ∧
    (searchWord "cat" FetchResult.notOk initialState).1.error =
      some errorMessage ∧
    (searchWord "cat" FetchResult.notOk initialState).1.loading = false ∧
    (searchWord "cat" FetchResult.notOk initialState).1.searchHistory =
      initialState.searchHistory :=
  searchWord_failure "cat" FetchResult.notOk initialState (by decide)
    (by decide)

/-- C6: a non-blank search issues the request for the lowercased term,
and on a parsed body replaces the word record with the head of the
response array, leaves no error, records the term at the front of the
history, and ends with `loading` false. -/
theorem searchWord_success (word : String) (data : List WordData)
    (st : AppState) (hw : jsTrim word ≠ "") :
    (searchWord word (FetchResult.ok data) st).2 =
      some ("https://api.dictionaryapi.dev/api/v2/entries/en/" ++
        jsToLower word) ∧
    (searchWord word (FetchResult.ok data) st).1.wordData = data.head? ∧
    (searchWord word (FetchResult.ok data) st).1.error = none ∧
    (searchWord word (FetchResult.ok data) st).1.searchHistory =
      recordHistory word st.searchHistory ∧
    ((searchWord word (FetchResult.ok data) st).1.searchHistory).head? =
      some word ∧
    (searchWord word (FetchResult.ok data) st).1.loading = false := by
  refine ⟨?_, ?_, ?_, ?_, ?_, ?_⟩ <;>
    simp [searchWord, hw, completeWord, searchPending, requestUrl,
      recordHistory]

/-- Witness for C6 at the term "Dog" and a one-record response. -/
theorem searchWord_success_witness :
    (searchWord "Dog" (FetchResult.ok [⟨"dog", [], [], none⟩])
        initialState).2 =
      some ("https://api.dictionaryapi.dev/api/v2/entries/en/" ++
        jsToLower "Dog") ∧
    (searchWord "Dog" (FetchResult.ok [⟨"dog", [], [], none⟩])
        initialState).1.wordData =
      ([⟨"dog", [], [], none⟩] : List WordData).head? ∧
    (searchWord "Dog" (FetchResult.ok [⟨"dog", [], [], none⟩])
        initialState).1.error = none ∧
    (searchWord "Dog" (FetchResult.ok [⟨"dog", [], [], none⟩])
        initialState).1.searchHistory =
      recordHistory "Dog" initialState.searchHistory ∧
    ((searchWord "Dog" (FetchResult.ok [⟨"dog", [], [], none⟩])
        initialState).1.searchHistory).head? = some "Dog" ∧
    (searchWord "Dog" (FetchResult.ok [⟨"dog", [], [], none⟩])
        initialState).1.loading = false :=
  searchWord_success "Dog" [⟨"dog", [], [], none⟩] initialState (by decide)

/-- C9: a 2xx response whose parsed body is the empty array takes the
success path: the word record becomes `none` (so neither a record nor an
error is presented), yet the term is still recorded in the history. -/
theorem searchWord_empty_array (word : String) (st : AppState)
    (hw : jsTrim word ≠ "") :
    (searchWord word (FetchResult.ok []) st).1.wordData = none ∧
    (searchWord word (FetchResult.ok []) st).1.error = none ∧
    (searchWord word (FetchResult.ok []) st).1.searchHistory =
      recordHistory word st.searchHistory ∧
    ((searchWord word (FetchResult.ok []) st).1.searchHistory).head? =
      some word := by
  refine ⟨?_, ?_, ?_, ?_⟩ <;>
    simp [searchWord, hw, completeWord, searchPending, recordHistory]

/-- Witness for C9 at the term "zzz". -/
theorem searchWord_empty_array_witness :
    (searchWord "zzz" (FetchResult.ok []) initialState).1.wordData = none ∧
    (searchWord "zzz" (FetchResult.ok []) initialState).1.error = none ∧
    (searchWord "zzz" (FetchResult.ok []) initialState).1.searchHistory =
      recordHistory "zzz" initialState.searchHistory ∧
    ((searchWord "zzz" (FetchResult.ok [])
        initialState).1.searchHistory).head? = some "zzz" :=
  searchWord_empty_array "zzz" initialState (by decide)

/-- C2 counterexample: the startup load does not survive every persisted
value — on a corrupt stored value (one `JSON.parse` rejects) the load
effect does not yield the empty list; the parse exception escapes. -/
theorem loadHistory_corrupt_not_empty :
    loadHistory StoredValue.corrupt ≠ Except.ok ([] : List String) := by
  simp [loadHistory]

/-- C2 amended: a missing stored value yields the empty history, a value
parsing to an array yields that array, but a corrupt stored value makes
the uncaught `JSON.parse` exception escape the load effect. -/
theorem loadHistory_behavior :
    loadHistory StoredValue.missing = Except.ok ([] : List String) ∧
    (∀ v : List String, loadHistory (StoredValue.parses v) = Except.ok v) ∧
    ∃ e, loadHistory StoredValue.corrupt = Except.error e := by
  exact ⟨rfl, fun v => rfl, ⟨_, rfl⟩⟩

/-- C7 counterexample: the renderer does not show the first phonetic
text available anywhere in the list — on a record whose entry 0 lacks a
text while entry 1 carries one, nothing is displayed although the
spec-modelled reading selects entry 1's text. -/
theorem phoneticDisplay_not_first_available :
    phoneticDisplay cexPhonWD ≠ firstAvailablePhoneticText cexPhonWD ∧
    phoneticDisplay cexPhonWD = none ∧
    firstAvailablePhoneticText cexPhonWD = some "/ks/" := by
  refine ⟨by decide, rfl, rfl⟩

/-- C7 amended: the renderer shows a phonetic spelling `t` exactly when
the FIRST phonetic entry carries the nonempty text `t`; later entries
are never consulted. -/
theorem phoneticDisplay_first_entry_only (wd : WordData) (t : String) :
    phoneticDisplay wd = some t ↔
      ∃ p ps, wd.phonetics = p :: ps ∧ p.text = some t ∧ t ≠ "" := by
  unfold phoneticDisplay
  cases hp : wd.phonetics with
  | nil => simp
  | cons p ps =>
    cases hpt : p.text with
    | none => simp [hpt]
    | some s =>
      by_cases hs : s = "" <;> simp [hpt, hs] <;> aesop

/-- C10: the lookup URL is keyed by the lowercased term while the
history dedups case-sensitively and stores the term as typed: "Hello"
then "hello" issue the same request twice yet leave two distinct history
entries, and recording "hello" over a history holding "Hello" removes
nothing. -/
theorem lookup_lowercase_history_case_sensitive :
    requestUrl "Hello" = requestUrl "hello" ∧
    recordHistory "hello" ["Hello"] = ["hello", "Hello"] ∧
    (searchWord "hello" (FetchResult.ok [])
        (searchWord "Hello" (FetchResult.ok []) initialState).1).1.searchHistory
      = ["hello", "Hello"] ∧
    ("hello" : String) ≠ "Hello" := by
  refine ⟨by decide, by decide, by decide, by decide⟩

/-- C8: the numbers rendered for a meaning's definitions are exactly
`1, 2, ...` up to the list length (contiguous from 1, independent of any
numbering inside the input), and a synonym or antonym array longer than
5 is displayed as exactly its first 5 elements, comma-joined in their
original order. -/
theorem renderMeaning_numbering_truncation (m : Meaning) (i : Nat)
    (d : Definition) (syns ants : List String)
    (hs : d.synonyms = some syns) (h5s : 5 < syns.length)
    (ha : d.antonyms = some ants) (h5a : 5 < ants.length) :
    (renderMeaning m).map (fun r => r.number) =
      List.range' 1 m.definitions.length ∧
    (renderDefinition i d).synonymsLine =
      some (String.intercalate ", " (syns.take 5)) ∧
    (syns.take 5).length = 5 ∧
    (renderDefinition i d).antonymsLine =
      some (String.intercalate ", " (ants.take 5)) ∧
    (ants.take 5).length = 5 := by
  have hps : 0 < syns.length := Nat.lt_trans (by decide) h5s
  have hpa : 0 < ants.length := Nat.lt_trans (by decide) h5a
  refine ⟨?_, ?_, ?_, ?_, ?_⟩
  · simpa [renderMeaning, List.enum] using
      renderMeaning_numbers_aux m.definitions 0
  · simp [renderDefinition, hs, hps]
  · simp [List.length_take, Nat.min_eq_left (Nat.le_of_lt h5s)]
  · simp [renderDefinition, ha, hpa]
  · simp [List.length_take, Nat.min_eq_left (Nat.le_of_lt h5a)]

/-- Witness for C8 at `exMeaning` and `exDefinition`. -/
theorem renderMeaning_numbering_truncation_witness :
    (renderMeaning exMeaning).map (fun r => r.number) =
      List.range' 1 exMeaning.definitions.length ∧
    (renderDefinition 0 exDefinition).synonymsLine =
      some (String.intercalate ", "
        (["s1", "s2", "s3", "s4", "s5", "s6"].take 5)) ∧
    ((["s1", "s2", "s3", "s4", "s5", "s6"] : List String).take 5).length
      = 5 ∧
    (renderDefinition 0 exDefinition).antonymsLine =
      some (String.intercalate ", "
        (["a1", "a2", "a3", "a4", "a5", "a6"].take 5)) ∧
    ((["a1", "a2", "a3", "a4", "a5", "a6"] : List String).take 5).length
      = 5 :=
  renderMeaning_numbering_truncation exMeaning 0 exDefinition
    ["s1", "s2", "s3", "s4", "s5", "s6"]
    ["a1", "a2", "a3", "a4", "a5", "a6"] rfl (by decide) rfl (by decide)

/-- Strengthened invariant of non-overlapping use: an error and a word
record are never both set, the error is clear while a request is in
flight, and at most one request is ever in flight. -/
theorem seq_inv (x : AppState × List String) (hx : SeqReachable x) :
    (x.1.error = none ∨ x.1.wordData = none) ∧
    (x.2 ≠ [] → x.1.error = none) ∧ x.2.length ≤ 1 := by
  induction hx with
  | refl => simp [initialState]
  | tail hab hbc ih =>
    cases hbc with
    | setTerm s st rs => simpa using ih
    | loadStored v st rs => simpa using ih
    | submit w st h =>
      refine ⟨Or.inl ?_, fun _ => ?_, by simp⟩ <;>
        simp [searchPending, h]
    | complete w fr st rs hmem =>
      obtain ⟨hdisj, herr, hlen⟩ := ih
      have hrs : rs = [w] := by
        cases rs with
        | nil => cases hmem
        | cons a l =>
          cases l with
          | nil => simp at hmem; simp [hmem]
          | cons b l2 => simp at hlen
      have herrnone : st.error = none := herr (by simp [hrs])
      cases fr with
      | ok data =>
        refine ⟨Or.inl ?_, fun _ => ?_, ?_⟩ <;>
          simp [completeWord, hrs, herrnone]
      | networkError =>
        refine ⟨Or.inr ?_, fun hne => absurd ?_ hne, ?_⟩ <;>
          simp [completeWord, hrs]
      | notOk =>
        refine ⟨Or.inr ?_, fun hne => absurd ?_ hne, ?_⟩ <;>
          simp [completeWord, hrs]
      | parseError =>
        refine ⟨Or.inr ?_, fun hne => absurd ?_ hne, ?_⟩ <;>
          simp [completeWord, hrs]

/-- C5 counterexample: with overlapping in-flight requests the
presentation invariant is violated — the racing trace reaches a state
where an error message and a word record are both set at once. -/
theorem raced_state_reachable :
    AppReachable (racedState, []) ∧ racedState.error ≠ none ∧
    racedState.wordData ≠ none := by
  refine ⟨?_, by simp [racedState], by simp [racedState]⟩
  have h1 : AppStep (initialState, [])
      ({ searchTerm := "", wordData := none, loading := true,
         error := none, searchHistory := [] }, ["aa"]) :=
    AppStep.submit "aa" initialState [] (by decide)
  have h2 : AppStep
      (({ searchTerm := "", wordData := none, loading := true,
          error := none, searchHistory := [] } : AppState), ["aa"])
      ({ searchTerm := "", wordData := none, loading := true,
         error := none, searchHistory := [] }, ["bb", "aa"]) :=
    AppStep.submit "bb" _ ["aa"] (by decide)
  have h3 : AppStep
      (({ searchTerm := "", wordData := none, loading := true,
          error := none, searchHistory := [] } : AppState), ["bb", "aa"])
      ({ searchTerm := "", wordData := none, loading := false,
         error := some errorMessage, searchHistory := [] }, ["bb"]) :=
    AppStep.complete "aa" FetchResult.notOk _ ["bb", "aa"] (by decide)
  have h4 : AppStep
      (({ searchTerm := "", wordData := none, loading := false,
          error := some errorMessage, searchHistory := [] } : AppState),
        ["bb"])
      (racedState, []) :=
    AppStep.complete "bb" (FetchResult.ok [cexWD]) _ ["bb"] (by decide)
  exact Relation.ReflTransGen.tail
    (Relation.ReflTransGen.tail
      (Relation.ReflTransGen.tail
        (Relation.ReflTransGen.tail Relation.ReflTransGen.refl h1) h2) h3)
    h4

/-- C5 (amended): in every state reachable without overlapping requests
(each response processed before the next submit) at most one of the
error and the word record is set, and every non-blank search attempt
clears the previous error already at submission, before its fetch
resolves. -/
theorem seq_presentation_invariant (x : AppState × List String)
    (hx : SeqReachable x) (t : String) (st : AppState)
    (ht : jsTrim t ≠ "") :
    (x.1.error = none ∨ x.1.wordData = none) ∧
    (searchPending t st).error = none :=
  ⟨(seq_inv x hx).1, by simp [searchPending, ht]⟩

/-- Witness for C5 (amended) at the startup state and the term "x". -/
theorem seq_presentation_invariant_witness :
    (initialState.error = none ∨ initialState.wordData = none) ∧
    (searchPending "x" initialState).error = none :=
  seq_presentation_invariant (initialState, []) Relation.ReflTransGen.refl
    "x" initialState (by decide)
